import Mathlib

/-!
Verification of the Straussome task-execution engine and tool layer.

The Python sources (src/core/orchestrator.py, src/core/models.py,
src/tools/base.py, src/agents/base.py) are shallowly embedded below.
Conventions used throughout:

* Python floats are modelled as exact rationals (`ℚ`); wall-clock time is
  simulated: each agent attempt carries an abstract duration, and backoff
  sleeps contribute their nominal length.
* Asynchronous execution of the linear LangGraph plan is modelled as
  sequential state passing over one shared state object, per spec section 5:
  steps of one task run strictly one after another and step N's effects on
  the shared state are visible to step N+1.
* Python exceptions are modelled with `Except String` carrying `str(e)`;
  `asyncio.wait_for` is modelled as a deadline check on simulated elapsed
  time (it times out exactly when the awaited work needs more than
  `timeout` simulated seconds).
* Python dicts are modelled as insertion-ordered association lists with an
  overwrite-or-append update (`updList`), matching dict assignment; keys of
  interest are strings, as in the source.
* Python string comparison (used by `sorted` on dict items) is lexicographic
  on code points, which is exactly the order of `String.data : List Char`.
-/

/-- Parameter/result values handled by tools: the JSON-serializable atoms
that `json.dumps` serializes in `BaseTool._get_cache_key` (container values
add nothing to the claims, which quantify over parameter maps). -/
inductive JValue
  | jnull
  | jbool (b : Bool)
  | jint (n : Int)
  | jstr (s : String)
deriving DecidableEq, Repr

/-- Model of `json.dumps` on a single value. -/
def dumps : JValue → String
  | .jnull => "null"
  | .jbool true => "true"
  | .jbool false => "false"
  | .jint n => toString n
  | .jstr s => "\"" ++ s ++ "\""

/-- Python dict assignment `d[k] = v`: overwrite in place if the key is
present, else append (dicts preserve insertion order). The association
lists produced by the model never carry duplicate keys. -/
def updList {α : Type} : List (String × α) → String → α → List (String × α)
  | [], k, v => [(k, v)]
  | p :: t, k, v => if p.1 = k then (k, v) :: t else p :: updList t k v

theorem lookup_updList_self {α : Type} (l : List (String × α)) (k : String) (v : α) :
    (updList l k v).lookup k = some v := by
  induction l with
  | nil => simp [updList, List.lookup]
  | cons p t ih =>
    by_cases h : p.1 = k
    · simp [updList, h, List.lookup]
    · have hbeq : (k == p.1) = false :=
        beq_eq_false_iff_ne.mpr (fun he => h he.symm)
      simp [updList, h, List.lookup, hbeq, ih]

theorem lookup_updList_ne {α : Type} (l : List (String × α)) (k k' : String) (v : α)
    (h : k' ≠ k) : (updList l k v).lookup k' = l.lookup k' := by
  induction l with
  | nil =>
    have hbeq : (k' == k) = false := beq_eq_false_iff_ne.mpr h
    simp [updList, List.lookup, hbeq]
  | cons p t ih =>
    by_cases hp : p.1 = k
    · have hbeq : (k' == k) = false := beq_eq_false_iff_ne.mpr h
      have hbeq' : (k' == p.1) = false := beq_eq_false_iff_ne.mpr (hp ▸ h)
      simp [updList, hp, List.lookup, hbeq, hbeq']
    · simp only [updList, if_neg hp, List.lookup]
      cases hbe : (k' == p.1) <;> simp [ih]

/-! ## Tool layer: src/tools/base.py -/

/-- `ToolStatus` (src/tools/base.py lines 15–21). -/
inductive ToolStatus
  | idle
  | running
  | completed
  | failed
  | timeout
deriving DecidableEq, Repr

/-- `ToolResult` (src/tools/base.py lines 24–36); `__post_init__` replaces a
`None` metadata with `{}`, so metadata is always a dict. -/
structure ToolResult where
  tool_name : String
  status : ToolStatus
  result : Option JValue := none
  error : Option String := none
  execution_time : ℚ := 0
  metadata : List (String × JValue) := []
deriving DecidableEq, Repr

/-- `ToolConfig` (src/tools/base.py lines 39–45). -/
structure ToolConfig where
  timeout : ℚ := 30
  max_retries : Nat := 2
  retry_delay : ℚ := 1
  cache_enabled : Bool := true
  cache_ttl : ℚ := 300
deriving DecidableEq, Repr

/-- The mutable cache of one `BaseTool` instance: `self._cache` and
`self._cache_timestamps`, always written in lock step. -/
structure ToolState where
  cache : List (String × ToolResult) := []
  timestamps : List (String × ℚ) := []
deriving DecidableEq, Repr

/-- A `BaseTool` instance. `exec` models the outcome that
`execute_with_retry(**kwargs)` would produce for a given parameter set
(the per-attempt retry arithmetic inside it is opaque to every claim here;
what matters is whether the wrapped operation runs at all). `cleanup`
models the resource-release hook `async def cleanup`, whose base
implementation succeeds doing nothing and which subclasses may override. -/
structure BaseToolM where
  name : String
  config : ToolConfig
  exec : List (String × JValue) → ToolResult
  cleanup : Except String Unit := .ok ()

/-- Key order used by Python's `sorted(kwargs.items())`: dict keys are
distinct, so items are ordered by string comparison of the keys, which is
lexicographic on code points (`String.data`). -/
def keyLE (a b : String × JValue) : Prop := a.1.data ≤ b.1.data

instance : DecidableRel keyLE := fun a b => by
  unfold keyLE; infer_instance

instance : IsTotal (String × JValue) keyLE :=
  ⟨fun a b => le_total a.1.data b.1.data⟩

instance : IsTrans (String × JValue) keyLE :=
  ⟨fun _ _ _ hab hbc => le_trans hab hbc⟩

/-- `sorted_kwargs = {k: v for k, v in sorted(kwargs.items())}`
(src/tools/base.py line 103). -/
def sortKwargs (params : List (String × JValue)) : List (String × JValue) :=
  List.insertionSort keyLE params

/-- The members of a JSON object as `json.dumps` renders them (default
separators `", "` and `": "`). -/
def dumpsKw : List (String × JValue) → String
  | [] => ""
  | [(k, v)] => "\"" ++ k ++ "\": " ++ dumps v
  | (k, v) :: y :: xs => "\"" ++ k ++ "\": " ++ dumps v ++ ", " ++ dumpsKw (y :: xs)

/-- `json.dumps(sorted_kwargs, sort_keys=True)` applied to an
already-key-sorted association list. -/
def dumpsObj (l : List (String × JValue)) : String :=
  "\x7b" ++ dumpsKw l ++ "\x7d"

/-- `BaseTool._get_cache_key` (src/tools/base.py lines 97–105):
`key_str = f"{self.name}:{json.dumps(sorted_kwargs, sort_keys=True)}"`.
The source then md5-hashes `key_str`; the hash is a fixed deterministic
function of `key_str`, so the model uses `key_str` itself as the key —
every claim about the key depends only on which `key_str`s coincide. -/
def getCacheKey (name : String) (params : List (String × JValue)) : String :=
  name ++ ":" ++ dumpsObj (sortKwargs params)

/-- `BaseTool._is_cache_valid` (src/tools/base.py lines 107–116). -/
def isCacheValid (t : BaseToolM) (st : ToolState) (now : ℚ) (key : String) : Bool :=
  if !t.config.cache_enabled then false
  else
    match st.timestamps.lookup key with
    | none => false
    | some ts => decide (now - ts < t.config.cache_ttl)

/-- `BaseTool._get_cached_result` (src/tools/base.py lines 118–123). The
source indexes `self._cache[cache_key]`; a valid timestamp always comes
with a cache entry because the two dicts are written together, and the
model's lookup returns that entry. -/
def getCachedResult (t : BaseToolM) (st : ToolState) (now : ℚ) (key : String) :
    Option ToolResult :=
  if isCacheValid t st now key then st.cache.lookup key else none

/-- `BaseTool._cache_result` (src/tools/base.py lines 125–130). -/
def cacheResult (t : BaseToolM) (st : ToolState) (now : ℚ) (key : String)
    (r : ToolResult) : ToolState :=
  if t.config.cache_enabled then
    { cache := updList st.cache key r, timestamps := updList st.timestamps key now }
  else st

/-- Output of one `BaseTool.__call__`: the returned result, the tool's cache
state afterwards, and whether the wrapped operation was executed (as opposed
to being answered from cache). -/
structure ToolCallOut where
  result : ToolResult
  state : ToolState
  executed : Bool
deriving DecidableEq, Repr

/-- `BaseTool.__call__` (src/tools/base.py lines 132–147): check the cache,
otherwise execute with retry, caching the result when it completed. A
`ToolResult` dataclass instance is always truthy, so `if cached_result:`
tests exactly presence. -/
def toolCall (t : BaseToolM) (st : ToolState) (now : ℚ)
    (params : List (String × JValue)) : ToolCallOut :=
  match getCachedResult t st now (getCacheKey t.name params) with
  | some r => ⟨r, st, false⟩
  | none =>
    if (t.exec params).status = .completed then
      ⟨t.exec params, cacheResult t st now (getCacheKey t.name params) (t.exec params), true⟩
    else ⟨t.exec params, st, true⟩

/-- `ToolRegistry.execute_tool` (src/tools/base.py lines 174–184). The
absent-name branch constructs and returns a synthetic failed `ToolResult`;
no branch raises, which the model reflects by being a total function into
`ToolResult`. `stOf` supplies each registered tool's current cache state. -/
def registryExecuteTool (tools : List (String × BaseToolM)) (stOf : String → ToolState)
    (now : ℚ) (name : String) (params : List (String × JValue)) : ToolResult :=
  match tools.lookup name with
  | none =>
    { tool_name := name, status := .failed,
      error := some ("Tool " ++ name ++ " not found") }
  | some t => (toolCall t (stOf name) now params).result

/-- `ToolRegistry.cleanup_all` (src/tools/base.py lines 186–189): a bare
`for` loop awaiting each tool's `cleanup` with no exception handling.
Returns the overall outcome and the names of the tools whose hooks were
invoked, in order. -/
def cleanupAll : List (String × BaseToolM) → Except String Unit × List String
  | [] => (.ok (), [])
  | (n, t) :: rest =>
    match t.cleanup with
    | .error e => (.error e, [n])
    | .ok _ =>
      let r := cleanupAll rest
      (r.1, n :: r.2)

/-! ## Core models: src/core/models.py -/

/-- `AgentStatus` (src/core/models.py lines 11–18). -/
inductive AgentStatus
  | pending
  | running
  | completed
  | failed
  | timeout
  | retrying
deriving DecidableEq, Repr

/-- `TaskStatus` (src/core/models.py lines 21–27). -/
inductive TaskStatus
  | pending
  | running
  | completed
  | failed
  | cancelled
deriving DecidableEq, Repr

/-- `AgentResult` (src/core/models.py lines 30–40). -/
structure AgentResult where
  agent_id : String
  task_id : String
  status : AgentStatus
  result : Option JValue := none
  error : Option String := none
  execution_time : ℚ := 0
  retry_count : Nat := 0
deriving DecidableEq, Repr

/-- `TaskConfig` (src/core/models.py lines 43–50). -/
structure TaskConfig where
  timeout : ℚ := 300
  max_retries : Nat := 3
  retry_delay : ℚ := 1
  retry_backoff : ℚ := 2
  concurrent_agents : Nat := 5
deriving DecidableEq, Repr

/-- Values stored under string keys in `execution_metadata` by the engine:
error strings, a `TaskStatus`, and timing numbers. -/
inductive MetaVal
  | s (v : String)
  | ts (v : TaskStatus)
  | q (v : ℚ)
deriving DecidableEq, Repr

/-- `AgentState` (src/core/models.py lines 53–61). -/
structure AgentState where
  task_id : String
  agent_results : List (String × AgentResult) := []
  shared_data : List (String × JValue) := []
  execution_metadata : List (String × MetaVal) := []
deriving DecidableEq, Repr

/-! ## Orchestrator: src/core/orchestrator.py -/

/-- One registered agent class as the orchestrator sees it. `execute n st`
is the outcome of the nth call of `await agent.execute(state)` on the one
instance constructed for the node (attempt numbering lets a behaviour fail
some attempts and then succeed, as a stateful Python agent can);
`duration n` is the simulated wall time the nth attempt takes. `cleanup`
models `await agent.cleanup()` in the node's `finally:` block — for the
agent classes shipped in this repository that attribute does not exist
(see `repoAgentCleanup` below), but the orchestrator itself is generic
over agent classes, so the behaviour is a parameter. -/
structure AgentSpec where
  execute : Nat → AgentState → Except String AgentState
  duration : Nat → ℚ := fun _ => 0
  cleanup : Except String Unit := .ok ()

instance : Inhabited AgentSpec :=
  ⟨{ execute := fun _ st => .ok st }⟩

/-- Output of `_execute_agent_with_retry`: the returned state or the raised
exception, the `agent_result` fields as mutated by the loop, the list of
backoff sleeps performed (in order), and the simulated elapsed time. -/
structure RetryOut where
  result : Except String AgentState
  ar : AgentResult
  sleeps : List ℚ
  elapsed : ℚ
deriving Repr

/-- The `if attempt > 0:` block at the top of each loop iteration of
`_execute_agent_with_retry` (src/core/orchestrator.py lines 195–197): mark
the outcome `retrying` and set `retry_count = attempt` before sleeping and
re-executing; attempt 0 leaves the outcome untouched. -/
def arUpd (ar : AgentResult) (attempt : Nat) : AgentResult :=
  if 0 < attempt then { ar with status := .retrying, retry_count := attempt }
  else ar

/-- The sleep performed at the top of attempt `attempt` (src/core/
orchestrator.py lines 199–201): `retry_delay * retry_backoff^(attempt-1)`
seconds before each retry attempt, and no sleep before attempt 0. -/
def attemptSleeps (cfg : TaskConfig) (attempt : Nat) : List ℚ :=
  if 0 < attempt then [cfg.retry_delay * cfg.retry_backoff ^ (attempt - 1)]
  else []

/-- The `for attempt in range(max_retries + 1)` loop of
`AgentOrchestrator._execute_agent_with_retry` (src/core/orchestrator.py
lines 191–215), processing the listed attempt numbers in order. Each
iteration first applies `arUpd`/`attemptSleeps`, then executes. On an
exception it breaks once `attempt == max_retries`, and the last exception
is re-raised; `lastE` carries `last_exception`. -/
def retryGo (cfg : TaskConfig) (ag : AgentSpec) (st : AgentState) :
    List Nat → String → AgentResult → RetryOut
  | [], lastE, ar => ⟨.error lastE, ar, [], 0⟩
  | attempt :: rest, _lastE, ar =>
    match ag.execute attempt st with
    | .ok st' =>
      ⟨.ok st', arUpd ar attempt, attemptSleeps cfg attempt,
        (attemptSleeps cfg attempt).sum + ag.duration attempt⟩
    | .error e =>
      if attempt = cfg.max_retries then
        ⟨.error e, arUpd ar attempt, attemptSleeps cfg attempt,
          (attemptSleeps cfg attempt).sum + ag.duration attempt⟩
      else
        let out := retryGo cfg ag st rest e (arUpd ar attempt)
        ⟨out.result, out.ar, attemptSleeps cfg attempt ++ out.sleeps,
          (attemptSleeps cfg attempt).sum + ag.duration attempt + out.elapsed⟩

/-- `AgentOrchestrator._execute_agent_with_retry` (src/core/orchestrator.py
lines 184–215). -/
def executeAgentWithRetry (cfg : TaskConfig) (ag : AgentSpec) (st : AgentState)
    (ar : AgentResult) : RetryOut :=
  retryGo cfg ag st (List.range (cfg.max_retries + 1)) "" ar

/-- Output of one graph node: whether the node function returned or raised,
the shared state after its mutations, its sleeps and simulated elapsed
time. -/
structure NodeOut where
  result : Except String Unit
  state : AgentState
  sleeps : List ℚ
  elapsed : ℚ
deriving Repr

/-- The effect of the node's `finally: await agent.cleanup()` on the
node's outcome: if the hook succeeds the `try` outcome stands; if the hook
raises, its exception propagates out of the node, replacing (in Python
semantics) whatever the `try` block produced. -/
def nodeFinish (cl : Except String Unit) (res : Except String Unit) :
    Except String Unit :=
  match cl with
  | .ok _ => res
  | .error ce => .error ce

/-- The mutation of `agent_result` on the node's success path
(src/core/orchestrator.py lines 151–154): record the wall time, mark
`completed` and read the agent's value from
`shared_data[f"{agent_id}_result"]`. -/
def completedOutcome (arR : AgentResult) (elapsed : ℚ) (resultState : AgentState)
    (agentId : String) : AgentResult :=
  { arR with
    execution_time := elapsed,
    status := .completed,
    result := resultState.shared_data.lookup (agentId ++ "_result") }

/-- The mutation of `agent_result` on the node's failure path
(src/core/orchestrator.py lines 164–167): record the wall time, mark
`failed` and keep the exception text. -/
def failedOutcome (arR : AgentResult) (elapsed : ℚ) (e : String) : AgentResult :=
  { arR with execution_time := elapsed, status := .failed, error := some e }

/-- The node function built by `AgentOrchestrator._create_agent_node`
(src/core/orchestrator.py lines 132–182): run the agent with retry on an
outcome created at `running`; on success store the `completed` outcome in
`agent_results` of the state the agent returned; on failure store the
`failed` outcome, set `execution_metadata["error"]`, and re-raise. Either
way the `finally:` block awaits `agent.cleanup()` exactly once
(`nodeFinish`). -/
def agentNode (cfg : TaskConfig) (agentId : String) (ag : AgentSpec)
    (state : AgentState) : NodeOut :=
  match executeAgentWithRetry cfg ag state
      { agent_id := agentId, task_id := state.task_id, status := .running } with
  | ⟨.ok resultState, arR, sleeps, elapsed⟩ =>
    ⟨nodeFinish ag.cleanup (.ok ()),
      { resultState with
        agent_results := updList resultState.agent_results agentId
          (completedOutcome arR elapsed resultState agentId) },
      sleeps, elapsed⟩
  | ⟨.error e, arR, sleeps, elapsed⟩ =>
    ⟨nodeFinish ag.cleanup (.error e),
      { state with
        agent_results := updList state.agent_results agentId
          (failedOutcome arR elapsed e),
        execution_metadata := updList state.execution_metadata "error" (.s e) },
      sleeps, elapsed⟩

/-- `AgentOrchestrator._build_agent_graph`'s validation loop
(src/core/orchestrator.py lines 112–116): each name of the sequence must be
a registered agent, otherwise `ValueError(f"Agent {agent_id} not
registered")` is raised; the nodes are created from the registered classes
in sequence order. -/
def resolveSeq (agents : List (String × AgentSpec)) :
    List String → Except String (List (String × AgentSpec))
  | [] => .ok []
  | id :: rest =>
    match agents.lookup id with
    | none => .error ("Agent " ++ id ++ " not registered")
    | some ag => (resolveSeq agents rest).map (fun l => (id, ag) :: l)

/-- `AgentOrchestrator._build_agent_graph` (src/core/orchestrator.py lines
107–130): validate and resolve the sequence into a linear plan. Compiling
an empty sequence leaves the graph without an entrypoint, which the graph
library rejects at `graph.compile` (modelled by the explicit error; the
spec's plans always name at least one step). -/
def buildAgentGraph (agents : List (String × AgentSpec)) (seq : List String) :
    Except String (List (String × AgentSpec)) :=
  match resolveSeq agents seq with
  | .error e => .error e
  | .ok plan =>
    if plan.isEmpty then .error "Graph must have an entrypoint" else .ok plan

/-- Output of one whole plan execution (`graph.ainvoke`): outcome, final
shared state, all backoff sleeps in order, simulated elapsed time, and the
ids of the steps that started, in order. -/
structure PlanOut where
  result : Except String Unit
  state : AgentState
  sleeps : List ℚ
  elapsed : ℚ
  started : List String
deriving Repr

/-- Sequential execution of the linear plan over the shared state
(`graph.ainvoke` on the chain built in `_build_agent_graph`): nodes run in
sequence order, each seeing the previous node's state; the first exception
aborts the remaining nodes. -/
def runPlan (cfg : TaskConfig) : List (String × AgentSpec) → AgentState → PlanOut
  | [], st => ⟨.ok (), st, [], 0, []⟩
  | (id, ag) :: rest, st =>
    let n := agentNode cfg id ag st
    match n.result with
    | .error e => ⟨.error e, n.state, n.sleeps, n.elapsed, [id]⟩
    | .ok _ =>
      let p := runPlan cfg rest n.state
      ⟨p.result, p.state, n.sleeps ++ p.sleeps, n.elapsed + p.elapsed, id :: p.started⟩

/-- The fresh `AgentState` built at the top of `execute_task`
(src/core/orchestrator.py lines 68–73). -/
def initState (taskId : String) (initialData : List (String × JValue)) : AgentState :=
  { task_id := taskId, shared_data := initialData }

/-- Output of `execute_task`: the returned state plus the run's observable
trace (sleeps performed and steps started). -/
structure TaskOut where
  state : AgentState
  sleeps : List ℚ
  started : List String
deriving Repr

/-- The two metadata assignments shared by every exception handler of
`execute_task`: `execution_metadata["error"] = ...` and
`execution_metadata["status"] = TaskStatus.FAILED`. -/
def failMeta (m : List (String × MetaVal)) (e : String) : List (String × MetaVal) :=
  updList (updList m "error" (.s e)) "status" (.ts .failed)

/-- `AgentOrchestrator.execute_task` (src/core/orchestrator.py lines
54–105): build the graph and run it under `asyncio.wait_for(...,
timeout=config.timeout)`. On `asyncio.TimeoutError` the task returns with
`execution_metadata["error"] = "Task timeout"` and `status = FAILED`; on
any other exception (a construction error or a step's terminal failure)
it returns with the exception text and `status = FAILED`; on success it
records the total execution time. The function catches every exception, so
it always returns a state (modelled by totality). -/
def executeTask (cfg : TaskConfig) (agents : List (String × AgentSpec))
    (taskId : String) (seq : List String)
    (initialData : List (String × JValue)) : TaskOut :=
  let state := initState taskId initialData
  match buildAgentGraph agents seq with
  | .error e =>
    ⟨{ state with execution_metadata := failMeta state.execution_metadata e }, [], []⟩
  | .ok plan =>
    let p := runPlan cfg plan state
    if cfg.timeout < p.elapsed then
      ⟨{ p.state with execution_metadata := failMeta p.state.execution_metadata "Task timeout" },
        p.sleeps, p.started⟩
    else
      match p.result with
      | .ok _ =>
        let md := updList p.state.execution_metadata "total_execution_time" (.q p.elapsed)
        ⟨{ p.state with execution_metadata := md }, p.sleeps, p.started⟩
      | .error e =>
        ⟨{ p.state with execution_metadata := failMeta p.state.execution_metadata e },
          p.sleeps, p.started⟩

/-! ## Agents: src/agents/base.py -/

/-- The attributes defined on `BaseAgent` (src/agents/base.py lines 6–23):
instance attributes from `__init__` plus the two methods. There is no
`cleanup` among them, and none of the agent subclasses in
src/agents/ defines one either. -/
def baseAgentAttrs : List String :=
  ["agent_id", "config", "tool_registry", "logger", "execute", "get_tool"]

/-- What `await agent.cleanup()` does for an agent class of this repository:
since neither `BaseAgent` nor any subclass defines `cleanup`, the attribute
access raises `AttributeError`. -/
def repoAgentCleanup (cls : String) : Except String Unit :=
  if baseAgentAttrs.contains "cleanup" then .ok ()
  else .error ("AttributeError: " ++ cls ++ " object has no attribute cleanup")

/-- The attributes defined on `ToolRegistry` (src/tools/base.py lines
154–189): instance attributes from `__init__` plus its methods. It exposes
`get`, not `get_tool`. -/
def toolRegistryAttrs : List String :=
  ["tools", "logger", "register", "get", "list_tools", "execute_tool", "cleanup_all"]

/-- `ToolRegistry.get` (src/tools/base.py lines 166–168). -/
def registryGet (tools : List (String × BaseToolM)) (name : String) : Option BaseToolM :=
  tools.lookup name

/-- `BaseAgent.get_tool` (src/agents/base.py lines 19–23): with no registry
(`None` is falsy) return `None`; with a registry (instances are truthy)
access `self.tool_registry.get_tool(...)` — an attribute `ToolRegistry`
does not define, so the access raises `AttributeError` instead of reaching
any lookup. -/
def baseAgentGetTool (reg : Option (List (String × BaseToolM))) (toolName : String) :
    Except String (Option BaseToolM) :=
  match reg with
  | none => .ok none
  | some r =>
    if toolRegistryAttrs.contains "get_tool" then .ok (registryGet r toolName)
    else .error "AttributeError: ToolRegistry object has no attribute get_tool"

/-! ## Claims about the tool layer -/

/-- C6: for every name absent from the tool registry and every parameter
set, invoking the registry by that name returns a `ToolResult` with
`status = failed` and `error = "Tool <name> not found"`; the absent-name
branch of `execute_tool` constructs and returns this value without raising
(the model is a total function). -/
theorem missing_tool_invocation_reports_failed
    (tools : List (String × BaseToolM)) (stOf : String → ToolState) (now : ℚ)
    (name : String) (params : List (String × JValue))
    (h : tools.lookup name = none) :
    registryExecuteTool tools stOf now name params =
      { tool_name := name, status := .failed, result := none,
        error := some ("Tool " ++ name ++ " not found"),
        execution_time := 0, metadata := [] } := by
  unfold registryExecuteTool
  rw [h]

theorem missing_tool_invocation_reports_failed_witness :
    ([] : List (String × BaseToolM)).lookup "fetch" = none
    ∧ registryExecuteTool [] (fun _ => {}) 0 "fetch" [] =
      { tool_name := "fetch", status := .failed, result := none,
        error := some ("Tool " ++ "fetch" ++ " not found"),
        execution_time := 0, metadata := [] } :=
  ⟨rfl, missing_tool_invocation_reports_failed [] (fun _ => {}) 0 "fetch" [] rfl⟩

/-- C10: an agent constructed with `tool_registry = None` gets `None` from
`get_tool` for every name; an agent holding an actual registry faults with
`AttributeError`, because `ToolRegistry` defines `get` but not `get_tool`. -/
theorem get_tool_none_registry_or_attribute_error :
    (∀ name, baseAgentGetTool none name = .ok none)
    ∧ toolRegistryAttrs.contains "get" = true
    ∧ toolRegistryAttrs.contains "get_tool" = false
    ∧ ∀ r name, baseAgentGetTool (some r) name =
        .error "AttributeError: ToolRegistry object has no attribute get_tool" :=
  ⟨fun _ => rfl, rfl, rfl, fun _ _ => rfl⟩

/-- A registered tool whose release hook raises (as e.g. a fetcher closing
a broken network client would). -/
def failingCleanupTool : BaseToolM :=
  { name := "fetcher", config := {},
    exec := fun _ => { tool_name := "fetcher", status := .failed },
    cleanup := .error "network client close failed" }

/-- A registered tool whose release hook succeeds. -/
def tidyTool : BaseToolM :=
  { name := "charts", config := {},
    exec := fun _ => { tool_name := "charts", status := .failed } }

/-- C8 counterexample: with two registered tools whose first hook raises,
`cleanup_all` stops at the failing hook — the second registered tool's hook
is never invoked and the exception propagates — refuting the claim that one
failing hook does not prevent the remaining hooks from being invoked. -/
theorem cleanup_all_aborted_by_failing_hook :
    "charts" ∈ ([("fetcher", failingCleanupTool), ("charts", tidyTool)].map Prod.fst)
    ∧ (cleanupAll [("fetcher", failingCleanupTool), ("charts", tidyTool)]).2 = ["fetcher"]
    ∧ "charts" ∉ (cleanupAll [("fetcher", failingCleanupTool), ("charts", tidyTool)]).2
    ∧ (cleanupAll [("fetcher", failingCleanupTool), ("charts", tidyTool)]).1 =
        .error "network client close failed" :=
  ⟨by decide, rfl, by decide, rfl⟩

theorem cleanupAll_cons_ok (n : String) (t : BaseToolM)
    (rest : List (String × BaseToolM)) (h : t.cleanup = .ok ()) :
    cleanupAll ((n, t) :: rest) = ((cleanupAll rest).1, n :: (cleanupAll rest).2) := by
  simp only [cleanupAll]
  rw [h]

theorem cleanupAll_cons_err (n : String) (t : BaseToolM)
    (rest : List (String × BaseToolM)) (e : String) (h : t.cleanup = .error e) :
    cleanupAll ((n, t) :: rest) = (.error e, [n]) := by
  simp only [cleanupAll]
  rw [h]

/-- C8 amended: `cleanup_all` invokes the registered hooks in registration
order only up to and including the first hook that raises; that exception
propagates and the remaining hooks are not invoked. When no hook raises,
every registered tool's hook is invoked. -/
theorem cleanup_all_stops_at_first_failing_hook (tools : List (String × BaseToolM)) :
    ((∀ p ∈ tools, p.2.cleanup = .ok ()) →
      cleanupAll tools = (.ok (), tools.map Prod.fst))
    ∧ ∀ pre x rest e, tools = pre ++ x :: rest →
        (∀ p ∈ pre, p.2.cleanup = .ok ()) → x.2.cleanup = .error e →
        cleanupAll tools = (.error e, pre.map Prod.fst ++ [x.1]) := by
  constructor
  · intro h
    induction tools with
    | nil => rfl
    | cons p t ih =>
      obtain ⟨n, tl⟩ := p
      have hp : tl.cleanup = Except.ok () := h (n, tl) (List.mem_cons_self _ t)
      have ht := ih (fun q hq => h q (List.mem_cons_of_mem _ hq))
      rw [cleanupAll_cons_ok n tl t hp, ht]
      simp
  · rintro pre x rest e rfl hpre hx
    induction pre with
    | nil =>
      obtain ⟨n, tl⟩ := x
      have hx' : tl.cleanup = Except.error e := hx
      rw [List.nil_append, cleanupAll_cons_err n tl rest e hx']
      simp
    | cons q pre' ih =>
      obtain ⟨n, tl⟩ := q
      have hq : tl.cleanup = Except.ok () := hpre (n, tl) (List.mem_cons_self _ pre')
      have hrec := ih (fun p hp => hpre p (List.mem_cons_of_mem _ hp))
      rw [List.cons_append, cleanupAll_cons_ok n tl _ hq, hrec]
      simp

theorem cleanup_all_stops_at_first_failing_hook_witness :
    cleanupAll [("fetcher", failingCleanupTool), ("charts", tidyTool)] =
      (.error "network client close failed", ["fetcher"]) :=
  (cleanup_all_stops_at_first_failing_hook
      [("fetcher", failingCleanupTool), ("charts", tidyTool)]).2
    [] ("fetcher", failingCleanupTool) [("charts", tidyTool)]
    "network client close failed" rfl (by simp) rfl

theorem sorted_nodupkeys_perm_eq :
    ∀ l₁ l₂ : List (String × JValue), l₁.Perm l₂ →
      l₁.Sorted keyLE → l₂.Sorted keyLE → (l₁.map Prod.fst).Nodup → l₁ = l₂ := by
  intro l₁
  induction l₁ with
  | nil =>
    intro l₂ hp _ _ _
    cases l₂ with
    | nil => rfl
    | cons b t₂ => simpa using hp.length_eq
  | cons a t ih =>
    intro l₂ hp hs1 hs2 hnd
    cases l₂ with
    | nil => simpa using hp.length_eq
    | cons b t₂ =>
      by_cases hab : a = b
      · subst hab
        have ht := ih t₂ hp.cons_inv hs1.of_cons hs2.of_cons
          ((List.nodup_cons.mp hnd).2)
        rw [ht]
      · exfalso
        have ha : a ∈ t₂ := by
          rcases List.mem_cons.mp (hp.subset (List.mem_cons_self a t)) with h | h
          · exact absurd h hab
          · exact h
        have hb : b ∈ t := by
          rcases List.mem_cons.mp (hp.symm.subset (List.mem_cons_self b t₂)) with h | h
          · exact absurd h.symm hab
          · exact h
        have h1 : keyLE a b := (List.sorted_cons.mp hs1).1 b hb
        have h2 : keyLE b a := (List.sorted_cons.mp hs2).1 a ha
        have hkey : a.1 = b.1 := by
          apply String.ext
          exact le_antisymm h1 h2
        have : a.1 ∈ t.map Prod.fst := by
          rw [hkey]
          exact List.mem_map_of_mem Prod.fst hb
        exact (List.nodup_cons.mp hnd).1 this

/-- C9: two parameter mappings that are equal as key–value maps (the same
pairs, in any supply order, with distinct keys as Python kwargs have)
produce the identical cache key: the key is computed from the tool name and
the sorted, serialized parameters. -/
theorem cache_key_independent_of_param_order (name : String)
    (p₁ p₂ : List (String × JValue))
    (hperm : p₁.Perm p₂) (hnd : (p₁.map Prod.fst).Nodup) :
    getCacheKey name p₁ = getCacheKey name p₂ := by
  have hs : sortKwargs p₁ = sortKwargs p₂ := by
    apply sorted_nodupkeys_perm_eq
    · exact (List.perm_insertionSort keyLE p₁).trans
        (hperm.trans (List.perm_insertionSort keyLE p₂).symm)
    · exact List.sorted_insertionSort keyLE p₁
    · exact List.sorted_insertionSort keyLE p₂
    · exact (((List.perm_insertionSort keyLE p₁).map Prod.fst).nodup_iff).mpr hnd
  unfold getCacheKey
  rw [hs]

theorem cache_key_independent_of_param_order_witness :
    ([(("url" : String), JValue.jstr "x"), ("limit", JValue.jint 5)].Perm
      [("limit", JValue.jint 5), ("url", JValue.jstr "x")])
    ∧ getCacheKey "fetch" [("url", .jstr "x"), ("limit", .jint 5)] =
        getCacheKey "fetch" [("limit", .jint 5), ("url", .jstr "x")] :=
  ⟨by decide,
    cache_key_independent_of_param_order "fetch"
      [("url", .jstr "x"), ("limit", .jint 5)]
      [("limit", .jint 5), ("url", .jstr "x")] (by decide) (by decide)⟩

/-- C3: for a tool with caching enabled, (i) any invocation while the cache
holds an entry for the parameter set younger than `cache_ttl` returns that
entry unchanged, executes nothing and leaves the cache state (including the
timestamp) untouched; (ii) any invocation once the entry's age reaches
`cache_ttl` executes the wrapped operation again; (iii) an invocation that
executed and completed successfully leaves the returned result in the cache
stamped with the invocation time — which is what makes (i) apply to every
subsequent invocation within the TTL. -/
theorem tool_cache_ttl_behaviour (t : BaseToolM)
    (hen : t.config.cache_enabled = true) :
    (∀ st now params ts r,
        st.timestamps.lookup (getCacheKey t.name params) = some ts →
        st.cache.lookup (getCacheKey t.name params) = some r →
        now - ts < t.config.cache_ttl →
        toolCall t st now params = ⟨r, st, false⟩)
    ∧ (∀ st now params ts,
        st.timestamps.lookup (getCacheKey t.name params) = some ts →
        ¬(now - ts < t.config.cache_ttl) →
        (toolCall t st now params).executed = true)
    ∧ (∀ st now params r st',
        toolCall t st now params = ⟨r, st', true⟩ → r.status = .completed →
        st'.cache.lookup (getCacheKey t.name params) = some r
        ∧ st'.timestamps.lookup (getCacheKey t.name params) = some now) := by
  refine ⟨?_, ?_, ?_⟩
  · intro st now params ts r hts hc hlt
    have hvalid : isCacheValid t st now (getCacheKey t.name params) = true := by
      unfold isCacheValid
      rw [hen, hts]
      simpa using hlt
    unfold toolCall getCachedResult
    rw [hvalid]
    simp only [if_true, hc]
  · intro st now params ts hts hge
    have hvalid : isCacheValid t st now (getCacheKey t.name params) = false := by
      unfold isCacheValid
      rw [hen, hts]
      simpa using hge
    unfold toolCall getCachedResult
    rw [hvalid]
    simp only [Bool.false_eq_true, if_false]
    split <;> rfl
  · intro st now params r st' heq hcomp
    unfold toolCall at heq
    rcases hca : getCachedResult t st now (getCacheKey t.name params) with _ | r0
    · rw [hca] at heq
      simp only at heq
      split at heq
      · rcases heq with ⟨rfl, rfl, -⟩
        unfold cacheResult
        rw [hen]
        simp only [if_true]
        exact ⟨lookup_updList_self _ _ _, lookup_updList_self _ _ _⟩
      · rcases heq with ⟨rfl, rfl, -⟩
        simp_all
    · rw [hca] at heq
      simp only [ToolCallOut.mk.injEq] at heq
      exact absurd heq.2.2 (by simp)

/-- A tool whose wrapped operation always completes with the value 7. -/
def demoFetchTool : BaseToolM :=
  { name := "fetch", config := {},
    exec := fun _ => { tool_name := "fetch", status := .completed,
                       result := some (.jint 7) } }

/-- The result `demoFetchTool` produces and caches. -/
def demoFetchResult : ToolResult :=
  { tool_name := "fetch", status := .completed, result := some (.jint 7) }

/-- A cache state holding `demoFetchResult` stamped at time 0. -/
def demoFetchState : ToolState :=
  { cache := [(getCacheKey "fetch" [], demoFetchResult)],
    timestamps := [(getCacheKey "fetch" [], 0)] }

theorem tool_cache_ttl_behaviour_witness :
    toolCall demoFetchTool demoFetchState 10 [] =
      ⟨demoFetchResult, demoFetchState, false⟩ :=
  (tool_cache_ttl_behaviour demoFetchTool rfl).1 demoFetchState 10 [] 0
    demoFetchResult rfl rfl (by norm_num [demoFetchTool])

/-! ## Lemmas about the retry loop -/

/-- The backoff sleeps of a run whose retry attempts were `1, …, k`:
`retry_delay * retry_backoff^(i-1)` seconds before retry attempt `i`. -/
def backoffList (cfg : TaskConfig) (k : Nat) : List ℚ :=
  (List.range' 1 k).map (fun i => cfg.retry_delay * cfg.retry_backoff ^ (i - 1))

theorem retryGo_cons_ok (cfg : TaskConfig) (ag : AgentSpec) (st : AgentState)
    (attempt : Nat) (rest : List Nat) (lastE : String) (ar : AgentResult)
    (st' : AgentState) (h : ag.execute attempt st = .ok st') :
    retryGo cfg ag st (attempt :: rest) lastE ar =
      ⟨.ok st', arUpd ar attempt, attemptSleeps cfg attempt,
        (attemptSleeps cfg attempt).sum + ag.duration attempt⟩ := by
  simp only [retryGo, h]

theorem retryGo_cons_break (cfg : TaskConfig) (ag : AgentSpec) (st : AgentState)
    (attempt : Nat) (rest : List Nat) (lastE : String) (ar : AgentResult)
    (e : String) (h : ag.execute attempt st = .error e)
    (hm : attempt = cfg.max_retries) :
    retryGo cfg ag st (attempt :: rest) lastE ar =
      ⟨.error e, arUpd ar attempt, attemptSleeps cfg attempt,
        (attemptSleeps cfg attempt).sum + ag.duration attempt⟩ := by
  simp only [retryGo, h]
  rw [if_pos hm]

theorem retryGo_cons_cont (cfg : TaskConfig) (ag : AgentSpec) (st : AgentState)
    (attempt : Nat) (rest : List Nat) (lastE : String) (ar : AgentResult)
    (e : String) (h : ag.execute attempt st = .error e)
    (hm : attempt ≠ cfg.max_retries) :
    retryGo cfg ag st (attempt :: rest) lastE ar =
      ⟨(retryGo cfg ag st rest e (arUpd ar attempt)).result,
       (retryGo cfg ag st rest e (arUpd ar attempt)).ar,
       attemptSleeps cfg attempt ++ (retryGo cfg ag st rest e (arUpd ar attempt)).sleeps,
       (attemptSleeps cfg attempt).sum + ag.duration attempt +
         (retryGo cfg ag st rest e (arUpd ar attempt)).elapsed⟩ := by
  simp only [retryGo, h]
  rw [if_neg hm]

theorem retryGo_ok_of_fail_then_ok (cfg : TaskConfig) (ag : AgentSpec)
    (st stOut : AgentState) (k : Nat) (hk : k ≤ cfg.max_retries)
    (hok : ag.execute k st = .ok stOut)
    (hfail : ∀ n, n < k → ∃ e, ag.execute n st = .error e) :
    ∀ len a lastE ar, 1 ≤ a → a + len = cfg.max_retries + 1 → a ≤ k →
      (retryGo cfg ag st (List.range' a len) lastE ar).result = .ok stOut
      ∧ (retryGo cfg ag st (List.range' a len) lastE ar).ar =
          { ar with status := .retrying, retry_count := k }
      ∧ (retryGo cfg ag st (List.range' a len) lastE ar).sleeps =
          (List.range' a (k + 1 - a)).map
            (fun i => cfg.retry_delay * cfg.retry_backoff ^ (i - 1)) := by
  intro len
  induction len with
  | zero =>
    intro a lastE ar h1 hsum hak
    omega
  | succ len ih =>
    intro a lastE ar h1 hsum hak
    rw [List.range'_succ]
    by_cases hek : a = k
    · subst hek
      rw [retryGo_cons_ok cfg ag st a _ lastE ar stOut hok]
      refine ⟨rfl, ?_, ?_⟩
      · show arUpd ar a = _
        unfold arUpd
        rw [if_pos (show 0 < a from h1)]
      · have h2 : a + 1 - a = 1 := by omega
        rw [h2]
        show attemptSleeps cfg a = _
        unfold attemptSleeps
        rw [if_pos (show 0 < a from h1)]
        rfl
    · have hlt : a < k := lt_of_le_of_ne hak hek
      obtain ⟨e, he⟩ := hfail a hlt
      have hne : a ≠ cfg.max_retries := by omega
      rw [retryGo_cons_cont cfg ag st a _ lastE ar e he hne]
      obtain ⟨ih1, ih2, ih3⟩ := ih (a + 1) e (arUpd ar a) (by omega) (by omega) (by omega)
      refine ⟨ih1, ?_, ?_⟩
      · show (retryGo cfg ag st (List.range' (a + 1) len) e (arUpd ar a)).ar = _
        rw [ih2]
        unfold arUpd
        rw [if_pos (show 0 < a from h1)]
      · show attemptSleeps cfg a ++
          (retryGo cfg ag st (List.range' (a + 1) len) e (arUpd ar a)).sleeps = _
        rw [ih3]
        unfold attemptSleeps
        rw [if_pos (show 0 < a from h1)]
        have h2 : k + 1 - a = (k + 1 - (a + 1)) + 1 := by omega
        rw [h2, List.range'_succ]
        rfl

theorem retryGo_error_of_all_fail (cfg : TaskConfig) (ag : AgentSpec)
    (st : AgentState) (errf : Nat → String)
    (hfail : ∀ n st', ag.execute n st' = .error (errf n)) :
    ∀ len a lastE ar, 1 ≤ a → a + len = cfg.max_retries + 1 →
      a ≤ cfg.max_retries →
      (retryGo cfg ag st (List.range' a len) lastE ar).result =
          .error (errf cfg.max_retries)
      ∧ (retryGo cfg ag st (List.range' a len) lastE ar).ar =
          { ar with status := .retrying, retry_count := cfg.max_retries }
      ∧ (retryGo cfg ag st (List.range' a len) lastE ar).sleeps =
          (List.range' a (cfg.max_retries + 1 - a)).map
            (fun i => cfg.retry_delay * cfg.retry_backoff ^ (i - 1)) := by
  intro len
  induction len with
  | zero =>
    intro a lastE ar h1 hsum ham
    omega
  | succ len ih =>
    intro a lastE ar h1 hsum ham
    rw [List.range'_succ]
    by_cases hem : a = cfg.max_retries
    · rw [retryGo_cons_break cfg ag st a _ lastE ar (errf a) (hfail a st) hem]
      rw [hem]
      refine ⟨rfl, ?_, ?_⟩
      · show arUpd ar cfg.max_retries = _
        unfold arUpd
        rw [if_pos (show 0 < cfg.max_retries from hem ▸ h1)]
      · have h2 : cfg.max_retries + 1 - cfg.max_retries = 1 := by omega
        rw [h2]
        show attemptSleeps cfg cfg.max_retries = _
        unfold attemptSleeps
        rw [if_pos (show 0 < cfg.max_retries from hem ▸ h1)]
        rfl
    · rw [retryGo_cons_cont cfg ag st a _ lastE ar (errf a) (hfail a st) hem]
      obtain ⟨ih1, ih2, ih3⟩ :=
        ih (a + 1) (errf a) (arUpd ar a) (by omega) (by omega) (by omega)
      refine ⟨ih1, ?_, ?_⟩
      · show (retryGo cfg ag st (List.range' (a + 1) len) (errf a) (arUpd ar a)).ar = _
        rw [ih2]
        unfold arUpd
        rw [if_pos (show 0 < a from h1)]
      · show attemptSleeps cfg a ++
          (retryGo cfg ag st (List.range' (a + 1) len) (errf a) (arUpd ar a)).sleeps = _
        rw [ih3]
        unfold attemptSleeps
        rw [if_pos (show 0 < a from h1)]
        have h2 : cfg.max_retries + 1 - a = (cfg.max_retries + 1 - (a + 1)) + 1 := by omega
        rw [h2, List.range'_succ]
        rfl

theorem executeAgentWithRetry_ok (cfg : TaskConfig) (ag : AgentSpec)
    (st stOut : AgentState) (ar : AgentResult) (k : Nat)
    (hk : k ≤ cfg.max_retries)
    (hfail : ∀ n, n < k → ∃ e, ag.execute n st = .error e)
    (hok : ag.execute k st = .ok stOut) :
    (executeAgentWithRetry cfg ag st ar).result = .ok stOut
    ∧ (executeAgentWithRetry cfg ag st ar).ar =
        (if k = 0 then ar else { ar with status := .retrying, retry_count := k })
    ∧ (executeAgentWithRetry cfg ag st ar).sleeps = backoffList cfg k := by
  unfold executeAgentWithRetry
  rw [List.range_eq_range', List.range'_succ, Nat.zero_add]
  rcases Nat.eq_zero_or_pos k with hk0 | hk1
  · subst hk0
    rw [retryGo_cons_ok cfg ag st 0 _ "" ar stOut hok]
    exact ⟨rfl, rfl, rfl⟩
  · obtain ⟨e0, he0⟩ := hfail 0 hk1
    have hne : (0 : Nat) ≠ cfg.max_retries := by omega
    rw [retryGo_cons_cont cfg ag st 0 _ "" ar e0 he0 hne]
    obtain ⟨g1, g2, g3⟩ := retryGo_ok_of_fail_then_ok cfg ag st stOut k hk hok hfail
      cfg.max_retries 1 e0 (arUpd ar 0) le_rfl (by omega) hk1
    refine ⟨g1, ?_, ?_⟩
    · show (retryGo cfg ag st (List.range' 1 cfg.max_retries) e0 (arUpd ar 0)).ar = _
      rw [g2, if_neg (by omega)]
      rfl
    · show attemptSleeps cfg 0 ++
        (retryGo cfg ag st (List.range' 1 cfg.max_retries) e0 (arUpd ar 0)).sleeps = _
      rw [g3]
      have h2 : k + 1 - 1 = k := by omega
      rw [h2]
      rfl

theorem executeAgentWithRetry_error (cfg : TaskConfig) (ag : AgentSpec)
    (st : AgentState) (ar : AgentResult) (errf : Nat → String)
    (hfail : ∀ n st', ag.execute n st' = .error (errf n)) :
    (executeAgentWithRetry cfg ag st ar).result = .error (errf cfg.max_retries)
    ∧ (executeAgentWithRetry cfg ag st ar).ar =
        (if cfg.max_retries = 0 then ar
         else { ar with status := .retrying, retry_count := cfg.max_retries })
    ∧ (executeAgentWithRetry cfg ag st ar).sleeps = backoffList cfg cfg.max_retries := by
  unfold executeAgentWithRetry
  rw [List.range_eq_range', List.range'_succ, Nat.zero_add]
  rcases Nat.eq_zero_or_pos cfg.max_retries with hm0 | hm1
  · rw [retryGo_cons_break cfg ag st 0 _ "" ar (errf 0) (hfail 0 st) hm0.symm]
    rw [hm0]
    exact ⟨rfl, rfl, rfl⟩
  · have hne : (0 : Nat) ≠ cfg.max_retries := by omega
    rw [retryGo_cons_cont cfg ag st 0 _ "" ar (errf 0) (hfail 0 st) hne]
    obtain ⟨g1, g2, g3⟩ := retryGo_error_of_all_fail cfg ag st errf hfail
      cfg.max_retries 1 (errf 0) (arUpd ar 0) le_rfl (by omega) hm1
    refine ⟨g1, ?_, ?_⟩
    · show (retryGo cfg ag st (List.range' 1 cfg.max_retries) (errf 0) (arUpd ar 0)).ar = _
      rw [g2, if_neg (by omega)]
      rfl
    · show attemptSleeps cfg 0 ++
        (retryGo cfg ag st (List.range' 1 cfg.max_retries) (errf 0) (arUpd ar 0)).sleeps = _
      rw [g3]
      have h2 : cfg.max_retries + 1 - 1 = cfg.max_retries := by omega
      rw [h2]
      rfl

theorem agentNode_ok (cfg : TaskConfig) (agentId : String) (ag : AgentSpec)
    (st stOut : AgentState) (k : Nat) (hk : k ≤ cfg.max_retries)
    (hfail : ∀ n, n < k → ∃ e, ag.execute n st = .error e)
    (hok : ag.execute k st = .ok stOut) :
    (agentNode cfg agentId ag st).sleeps = backoffList cfg k
    ∧ ∃ ar, (agentNode cfg agentId ag st).state.agent_results.lookup agentId = some ar
        ∧ ar.status = .completed ∧ ar.retry_count = k ∧ ar.agent_id = agentId
        ∧ ar.error = none := by
  obtain ⟨h1, h2, h3⟩ := executeAgentWithRetry_ok cfg ag st stOut
    { agent_id := agentId, task_id := st.task_id, status := .running } k hk hfail hok
  have hEq : executeAgentWithRetry cfg ag st
      { agent_id := agentId, task_id := st.task_id, status := .running } =
      ⟨.ok stOut,
       (executeAgentWithRetry cfg ag st
         { agent_id := agentId, task_id := st.task_id, status := .running }).ar,
       backoffList cfg k,
       (executeAgentWithRetry cfg ag st
         { agent_id := agentId, task_id := st.task_id, status := .running }).elapsed⟩ := by
    rw [← h1, ← h3]
  unfold agentNode
  rw [hEq]
  refine ⟨rfl, completedOutcome _ _ stOut agentId, lookup_updList_self _ _ _, rfl, ?_, ?_, ?_⟩
  · show (executeAgentWithRetry cfg ag st _).ar.retry_count = k
    rw [h2]
    by_cases hk0 : k = 0
    · rw [if_pos hk0, hk0]
    · rw [if_neg hk0]
  · show (executeAgentWithRetry cfg ag st _).ar.agent_id = agentId
    rw [h2]
    by_cases hk0 : k = 0
    · rw [if_pos hk0]
    · rw [if_neg hk0]
  · show (executeAgentWithRetry cfg ag st _).ar.error = none
    rw [h2]
    by_cases hk0 : k = 0
    · rw [if_pos hk0]
    · rw [if_neg hk0]

theorem backoffList_sum (cfg : TaskConfig) (k : Nat) :
    (backoffList cfg k).sum =
      ∑ i ∈ Finset.Icc 1 k, cfg.retry_delay * cfg.retry_backoff ^ (i - 1) := by
  induction k with
  | zero => simp [backoffList]
  | succ k ih =>
    have h1 : backoffList cfg (k + 1) = backoffList cfg k ++
        [cfg.retry_delay * cfg.retry_backoff ^ (1 + 1 * k - 1)] := by
      unfold backoffList
      rw [List.range'_concat, List.map_append]
      rfl
    rw [h1, List.sum_append, ih,
      Finset.sum_Icc_succ_top (by omega : 1 ≤ k + 1)]
    have h2 : 1 + 1 * k - 1 = k + 1 - 1 := by omega
    rw [h2]
    simp

/-- C2: a step whose logic raises on exactly `k ≤ max_retries` consecutive
attempts and then succeeds gets a recorded outcome with `retry_count = k`
and `status = completed`; the sleep before retry attempt `i` is exactly
`retry_delay * retry_backoff^(i-1)` seconds (the sleeps list, in order, is
the image of `1..k` under that formula), so the total back-off slept before
the successful attempt is `Σ_{i=1}^{k} retry_delay * retry_backoff^(i-1)`. -/
theorem step_retry_backoff_and_completed_outcome (cfg : TaskConfig)
    (agentId : String) (ag : AgentSpec) (st stOut : AgentState) (k : Nat)
    (hk : k ≤ cfg.max_retries)
    (hfail : ∀ n, n < k → ∃ e, ag.execute n st = .error e)
    (hok : ag.execute k st = .ok stOut) :
    (agentNode cfg agentId ag st).sleeps =
        (List.range' 1 k).map (fun i => cfg.retry_delay * cfg.retry_backoff ^ (i - 1))
    ∧ (agentNode cfg agentId ag st).sleeps.sum =
        ∑ i ∈ Finset.Icc 1 k, cfg.retry_delay * cfg.retry_backoff ^ (i - 1)
    ∧ ∃ ar, (agentNode cfg agentId ag st).state.agent_results.lookup agentId = some ar
        ∧ ar.retry_count = k ∧ ar.status = .completed := by
  obtain ⟨hs, ar, hl, hst, hrc, -, -⟩ := agentNode_ok cfg agentId ag st stOut k hk hfail hok
  refine ⟨hs, ?_, ar, hl, hrc, hst⟩
  rw [hs]
  exact backoffList_sum cfg k

/-- An agent whose logic raises on attempts 0 and 1 and succeeds from
attempt 2 on (its cleanup hook succeeds, as a user-supplied agent class
defining `cleanup` would). -/
def demoFlakyAgent : AgentSpec :=
  { execute := fun n st => if n < 2 then .error "boom" else .ok st }

theorem step_retry_backoff_and_completed_outcome_witness :
    (agentNode {} "analyze" demoFlakyAgent (initState "t" [])).sleeps =
        (List.range' 1 2).map (fun i => (1 : ℚ) * (2 : ℚ) ^ (i - 1))
    ∧ (agentNode {} "analyze" demoFlakyAgent (initState "t" [])).sleeps.sum =
        ∑ i ∈ Finset.Icc 1 2, (1 : ℚ) * (2 : ℚ) ^ (i - 1)
    ∧ ∃ ar, (agentNode {} "analyze" demoFlakyAgent
          (initState "t" [])).state.agent_results.lookup "analyze" = some ar
        ∧ ar.retry_count = 2 ∧ ar.status = .completed :=
  step_retry_backoff_and_completed_outcome {} "analyze" demoFlakyAgent
    (initState "t" []) (initState "t" []) 2 (by norm_num)
    (fun n hn => ⟨"boom", by simp [demoFlakyAgent, hn]⟩)
    (by simp [demoFlakyAgent])

/-- An agent class of this repository: its logic succeeds on the first
attempt, and its `cleanup` attribute is what the repository's `BaseAgent`
hierarchy actually provides — nothing, so the access raises
`AttributeError` (see `repoAgentCleanup`). -/
def dataAnalyzerLike : AgentSpec :=
  { execute := fun _ st => .ok st,
    cleanup := repoAgentCleanup "DataAnalysisAgent" }

/-- C7: the engine's node does route every exit path through
`finally: await agent.cleanup()`, but no agent class of this repository
has a `cleanup` attribute (`BaseAgent` defines none and no subclass adds
one), so the invocation raises `AttributeError` — and, raised in the
`finally:` block, that exception turns a task whose only step succeeded
(outcome recorded `completed`) into a `FAILED` task. The claim that the
release hook runs on every exit path without turning success into failure
is therefore the intended behaviour, and the missing `BaseAgent.cleanup`
(cf. `BaseTool.cleanup`, which exists and defaults to a no-op) is the slip. -/
theorem cleanup_hook_missing_turns_success_into_failure :
    baseAgentAttrs.contains "cleanup" = false
    ∧ ((executeTask {} [("data_analyzer", dataAnalyzerLike)] "t1" ["data_analyzer"]
          []).state.agent_results.lookup "data_analyzer").map AgentResult.status =
        some .completed
    ∧ (executeTask {} [("data_analyzer", dataAnalyzerLike)] "t1" ["data_analyzer"]
          []).state.execution_metadata.lookup "status" = some (.ts .failed)
    ∧ (executeTask {} [("data_analyzer", dataAnalyzerLike)] "t1" ["data_analyzer"]
          []).state.execution_metadata.lookup "error" =
        some (.s "AttributeError: DataAnalysisAgent object has no attribute cleanup") := by
  refine ⟨rfl, ?_, ?_, ?_⟩
  all_goals norm_num [executeTask, buildAgentGraph, resolveSeq, initState, runPlan,
    agentNode, executeAgentWithRetry, retryGo, dataAnalyzerLike, repoAgentCleanup,
    baseAgentAttrs, nodeFinish, completedOutcome, arUpd, attemptSleeps, updList,
    failMeta, List.range_succ, List.lookup, Except.map, List.isEmpty, List.contains,
    List.elem, Option.map, List.sum, List.foldr]
  all_goals rfl

/-! ## Lemmas about plan construction and plan execution -/

/-- The plan `_build_agent_graph` produces from a fully registered
sequence: each name paired with its registered agent class. -/
def planFor (agents : List (String × AgentSpec)) (seq : List String) :
    List (String × AgentSpec) :=
  seq.map (fun id => (id, (agents.lookup id).getD default))

theorem planFor_map_fst (agents : List (String × AgentSpec)) (seq : List String) :
    (planFor agents seq).map Prod.fst = seq := by
  induction seq with
  | nil => rfl
  | cons a l ih =>
    simp only [planFor, List.map_cons] at ih ⊢
    rw [ih]

theorem resolveSeq_ok (agents : List (String × AgentSpec)) :
    ∀ seq : List String, (∀ id ∈ seq, (agents.lookup id).isSome) →
      resolveSeq agents seq = .ok (planFor agents seq) := by
  intro seq
  induction seq with
  | nil => intro _; rfl
  | cons id rest ih =>
    intro h
    obtain ⟨ag, hag⟩ := Option.isSome_iff_exists.mp (h id (List.mem_cons_self _ _))
    have h2 := ih (fun i hi => h i (List.mem_cons_of_mem _ hi))
    simp only [resolveSeq]
    rw [hag, h2]
    simp [planFor, hag, Except.map]

theorem resolveSeq_err (agents : List (String × AgentSpec)) (u : String)
    (hu : agents.lookup u = none) :
    ∀ (pre rest : List String), (∀ id ∈ pre, (agents.lookup id).isSome) →
      resolveSeq agents (pre ++ u :: rest) =
        .error ("Agent " ++ u ++ " not registered") := by
  intro pre
  induction pre with
  | nil =>
    intro rest _
    simp only [List.nil_append, resolveSeq]
    rw [hu]
  | cons id pre' ih =>
    intro rest h
    obtain ⟨ag, hag⟩ := Option.isSome_iff_exists.mp (h id (List.mem_cons_self _ _))
    simp only [List.cons_append, resolveSeq]
    rw [hag]
    show Except.map (fun l => (id, ag) :: l)
        (resolveSeq agents (pre' ++ u :: rest)) =
      Except.error ("Agent " ++ u ++ " not registered")
    rw [ih rest (fun i hi => h i (List.mem_cons_of_mem _ hi))]
    rfl

theorem buildAgentGraph_ok (agents : List (String × AgentSpec)) (seq : List String)
    (hne : seq ≠ []) (hreg : ∀ id ∈ seq, (agents.lookup id).isSome) :
    buildAgentGraph agents seq = .ok (planFor agents seq) := by
  unfold buildAgentGraph
  rw [resolveSeq_ok agents seq hreg]
  have hemp : (planFor agents seq).isEmpty = false := by
    cases seq with
    | nil => exact absurd rfl hne
    | cons a l => rfl
  show (if (planFor agents seq).isEmpty = true
      then Except.error "Graph must have an entrypoint"
      else Except.ok (planFor agents seq)) = Except.ok (planFor agents seq)
  rw [hemp]
  rfl

theorem buildAgentGraph_err_unregistered (agents : List (String × AgentSpec))
    (u : String) (pre rest : List String)
    (hpre : ∀ id ∈ pre, (agents.lookup id).isSome)
    (hu : agents.lookup u = none) :
    buildAgentGraph agents (pre ++ u :: rest) =
      .error ("Agent " ++ u ++ " not registered") := by
  unfold buildAgentGraph
  rw [resolveSeq_err agents u hu pre rest hpre]

theorem runPlan_cons_err (cfg : TaskConfig) (id : String) (ag : AgentSpec)
    (rest : List (String × AgentSpec)) (st : AgentState) (e : String)
    (h : (agentNode cfg id ag st).result = .error e) :
    runPlan cfg ((id, ag) :: rest) st =
      ⟨.error e, (agentNode cfg id ag st).state, (agentNode cfg id ag st).sleeps,
        (agentNode cfg id ag st).elapsed, [id]⟩ := by
  simp only [runPlan]
  rw [h]

theorem runPlan_cons_ok (cfg : TaskConfig) (id : String) (ag : AgentSpec)
    (rest : List (String × AgentSpec)) (st : AgentState)
    (h : (agentNode cfg id ag st).result = .ok ()) :
    runPlan cfg ((id, ag) :: rest) st =
      ⟨(runPlan cfg rest (agentNode cfg id ag st).state).result,
       (runPlan cfg rest (agentNode cfg id ag st).state).state,
       (agentNode cfg id ag st).sleeps ++
         (runPlan cfg rest (agentNode cfg id ag st).state).sleeps,
       (agentNode cfg id ag st).elapsed +
         (runPlan cfg rest (agentNode cfg id ag st).state).elapsed,
       id :: (runPlan cfg rest (agentNode cfg id ag st).state).started⟩ := by
  simp only [runPlan]
  rw [h]

theorem runPlan_append (cfg : TaskConfig) (p₁ p₂ : List (String × AgentSpec)) :
    ∀ st, (runPlan cfg p₁ st).result = .ok () →
      runPlan cfg (p₁ ++ p₂) st =
        ⟨(runPlan cfg p₂ (runPlan cfg p₁ st).state).result,
         (runPlan cfg p₂ (runPlan cfg p₁ st).state).state,
         (runPlan cfg p₁ st).sleeps ++
           (runPlan cfg p₂ (runPlan cfg p₁ st).state).sleeps,
         (runPlan cfg p₁ st).elapsed +
           (runPlan cfg p₂ (runPlan cfg p₁ st).state).elapsed,
         (runPlan cfg p₁ st).started ++
           (runPlan cfg p₂ (runPlan cfg p₁ st).state).started⟩ := by
  induction p₁ with
  | nil =>
    intro st h
    simp only [List.nil_append, runPlan]
    simp
  | cons x p₁' ih =>
    intro st h
    obtain ⟨id, ag⟩ := x
    rcases hres : (agentNode cfg id ag st).result with e | u
    · rw [runPlan_cons_err cfg id ag p₁' st e hres] at h
      simp at h
    · cases u
      rw [runPlan_cons_ok cfg id ag p₁' st hres] at h
      have h' : (runPlan cfg p₁' (agentNode cfg id ag st).state).result = .ok () := h
      rw [List.cons_append, runPlan_cons_ok cfg id ag (p₁' ++ p₂) st hres,
        runPlan_cons_ok cfg id ag p₁' st hres,
        ih (agentNode cfg id ag st).state h']
      simp [List.append_assoc, add_assoc]

theorem runPlan_append_of_eq (cfg : TaskConfig) (p₁ p₂ : List (String × AgentSpec))
    (st st₁ : AgentState) (ss : List ℚ) (el : ℚ) (ids : List String)
    (h : runPlan cfg p₁ st = ⟨.ok (), st₁, ss, el, ids⟩) :
    runPlan cfg (p₁ ++ p₂) st =
      ⟨(runPlan cfg p₂ st₁).result, (runPlan cfg p₂ st₁).state,
       ss ++ (runPlan cfg p₂ st₁).sleeps, el + (runPlan cfg p₂ st₁).elapsed,
       ids ++ (runPlan cfg p₂ st₁).started⟩ := by
  have h0 : (runPlan cfg p₁ st).result = .ok () := by rw [h]
  have h1 := runPlan_append cfg p₁ p₂ st h0
  rw [h] at h1
  simpa using h1

theorem runPlan_started_subset (cfg : TaskConfig) :
    ∀ (plan : List (String × AgentSpec)) (st : AgentState),
      (runPlan cfg plan st).started ⊆ plan.map Prod.fst := by
  intro plan
  induction plan with
  | nil => intro st; simp [runPlan]
  | cons x rest ih =>
    intro st
    obtain ⟨id, ag⟩ := x
    rcases hres : (agentNode cfg id ag st).result with e | u
    · rw [runPlan_cons_err cfg id ag rest st e hres]
      intro a ha
      simp only [List.map_cons]
      simp at ha
      simp [ha]
    · cases u
      rw [runPlan_cons_ok cfg id ag rest st hres]
      intro a ha
      simp only [List.map_cons]
      rcases List.mem_cons.mp ha with h1 | h1
      · simp [h1]
      · exact List.mem_cons_of_mem _ (ih (agentNode cfg id ag st).state h1)

theorem agentNode_fail (cfg : TaskConfig) (agentId : String) (ag : AgentSpec)
    (st : AgentState) (errf : Nat → String)
    (hfail : ∀ n st', ag.execute n st' = .error (errf n)) :
    (∃ e', (agentNode cfg agentId ag st).result = .error e')
    ∧ (∃ ar, (agentNode cfg agentId ag st).state.agent_results.lookup agentId = some ar
        ∧ ar.status = .failed ∧ ar.retry_count = cfg.max_retries
        ∧ ar.error = some (errf cfg.max_retries))
    ∧ (∀ k', k' ≠ agentId →
        (agentNode cfg agentId ag st).state.agent_results.lookup k' =
          st.agent_results.lookup k')
    ∧ (agentNode cfg agentId ag st).sleeps = backoffList cfg cfg.max_retries := by
  obtain ⟨h1, h2, h3⟩ := executeAgentWithRetry_error cfg ag st
    { agent_id := agentId, task_id := st.task_id, status := .running } errf hfail
  have hEq : executeAgentWithRetry cfg ag st
      { agent_id := agentId, task_id := st.task_id, status := .running } =
      ⟨.error (errf cfg.max_retries),
       (executeAgentWithRetry cfg ag st
         { agent_id := agentId, task_id := st.task_id, status := .running }).ar,
       backoffList cfg cfg.max_retries,
       (executeAgentWithRetry cfg ag st
         { agent_id := agentId, task_id := st.task_id, status := .running }).elapsed⟩ := by
    rw [← h1, ← h3]
  unfold agentNode
  rw [hEq]
  refine ⟨?_, ⟨failedOutcome _ _ _, lookup_updList_self _ _ _, rfl, ?_, rfl⟩, ?_, rfl⟩
  · cases hc : ag.cleanup with
    | ok u => exact ⟨errf cfg.max_retries, by simp [nodeFinish, hc]⟩
    | error ce => exact ⟨ce, by simp [nodeFinish, hc]⟩
  · show (executeAgentWithRetry cfg ag st _).ar.retry_count = cfg.max_retries
    rw [h2]
    by_cases hm0 : cfg.max_retries = 0
    · rw [if_pos hm0, hm0]
    · rw [if_neg hm0]
  · intro k' hk'
    exact lookup_updList_ne _ _ _ _ hk'

theorem lookup_failMeta_error (m : List (String × MetaVal)) (e : String) :
    (failMeta m e).lookup "error" = some (.s e) := by
  unfold failMeta
  rw [lookup_updList_ne _ _ _ _ (by decide : ("error" : String) ≠ "status")]
  exact lookup_updList_self _ _ _

theorem lookup_failMeta_status (m : List (String × MetaVal)) (e : String) :
    (failMeta m e).lookup "status" = some (.ts .failed) := by
  unfold failMeta
  exact lookup_updList_self _ _ _

/-- C4: for every step sequence whose first unregistered name is `u`
(every name before `u` is registered and `u` is not), `execute_task`
terminates with task status FAILED and the error message naming `u`,
before any step runs: `agent_results` stays empty, no step started and no
backoff sleep was performed. -/
theorem unregistered_step_fails_task_before_any_step
    (cfg : TaskConfig) (agents : List (String × AgentSpec)) (taskId : String)
    (initData : List (String × JValue)) (pre rest : List String) (u : String)
    (hpre : ∀ id ∈ pre, (agents.lookup id).isSome)
    (hu : agents.lookup u = none) :
    (executeTask cfg agents taskId (pre ++ u :: rest) initData).state.execution_metadata.lookup
        "error" = some (.s ("Agent " ++ u ++ " not registered"))
    ∧ (executeTask cfg agents taskId (pre ++ u :: rest) initData).state.execution_metadata.lookup
        "status" = some (.ts .failed)
    ∧ (executeTask cfg agents taskId (pre ++ u :: rest) initData).state.agent_results = []
    ∧ (executeTask cfg agents taskId (pre ++ u :: rest) initData).started = []
    ∧ (executeTask cfg agents taskId (pre ++ u :: rest) initData).sleeps = [] := by
  have hb := buildAgentGraph_err_unregistered agents u pre rest hpre hu
  have hexec : executeTask cfg agents taskId (pre ++ u :: rest) initData =
      ⟨{ initState taskId initData with
         execution_metadata := failMeta (initState taskId initData).execution_metadata
           ("Agent " ++ u ++ " not registered") }, [], []⟩ := by
    unfold executeTask
    simp only [hb]
  rw [hexec]
  exact ⟨lookup_failMeta_error _ _, lookup_failMeta_status _ _, rfl, rfl, rfl⟩

/-- An agent whose logic always succeeds immediately and whose cleanup
hook succeeds (as a user-supplied agent class defining `cleanup` would). -/
def steadyAgent : AgentSpec :=
  { execute := fun _ st => .ok st }

theorem unregistered_step_fails_task_before_any_step_witness :
    (executeTask {} [("a", steadyAgent)] "t" (["a"] ++ "missing" :: []) []).state.execution_metadata.lookup
        "error" = some (.s ("Agent " ++ "missing" ++ " not registered"))
    ∧ (executeTask {} [("a", steadyAgent)] "t" (["a"] ++ "missing" :: []) []).state.execution_metadata.lookup
        "status" = some (.ts .failed)
    ∧ (executeTask {} [("a", steadyAgent)] "t" (["a"] ++ "missing" :: []) []).state.agent_results = []
    ∧ (executeTask {} [("a", steadyAgent)] "t" (["a"] ++ "missing" :: []) []).started = []
    ∧ (executeTask {} [("a", steadyAgent)] "t" (["a"] ++ "missing" :: []) []).sleeps = [] :=
  unregistered_step_fails_task_before_any_step {} [("a", steadyAgent)] "t" []
    ["a"] [] "missing" (by decide) rfl

/-- C5: whenever the plan's execution needs more simulated time than the
whole-task `timeout`, `execute_task` returns (rather than raising — the
model is total because the source catches every exception) a state whose
`execution_metadata` records status FAILED and the dedicated marker
`"Task timeout"`, distinguishing deadline expiry from step-exhaustion
failures, which carry the step's exception text instead. -/
theorem task_timeout_reports_failed
    (cfg : TaskConfig) (agents : List (String × AgentSpec)) (taskId : String)
    (seq : List String) (initData : List (String × JValue))
    (plan : List (String × AgentSpec))
    (hplan : buildAgentGraph agents seq = .ok plan)
    (hel : cfg.timeout < (runPlan cfg plan (initState taskId initData)).elapsed) :
    (executeTask cfg agents taskId seq initData).state.execution_metadata.lookup
        "error" = some (.s "Task timeout")
    ∧ (executeTask cfg agents taskId seq initData).state.execution_metadata.lookup
        "status" = some (.ts .failed) := by
  have hexec : executeTask cfg agents taskId seq initData =
      ⟨{ (runPlan cfg plan (initState taskId initData)).state with
         execution_metadata :=
           failMeta (runPlan cfg plan (initState taskId initData)).state.execution_metadata
             "Task timeout" },
        (runPlan cfg plan (initState taskId initData)).sleeps,
        (runPlan cfg plan (initState taskId initData)).started⟩ := by
    unfold executeTask
    simp only [hplan]
    rw [if_pos hel]
  rw [hexec]
  exact ⟨lookup_failMeta_error _ _, lookup_failMeta_status _ _⟩

/-- An agent whose single successful attempt takes 400 simulated seconds —
longer than the default 300-second task deadline. -/
def slowAgent : AgentSpec :=
  { execute := fun _ st => .ok st, duration := fun _ => 400 }

theorem task_timeout_reports_failed_witness :
    (executeTask {} [("slow", slowAgent)] "t" ["slow"] []).state.execution_metadata.lookup
        "error" = some (.s "Task timeout")
    ∧ (executeTask {} [("slow", slowAgent)] "t" ["slow"] []).state.execution_metadata.lookup
        "status" = some (.ts .failed) :=
  task_timeout_reports_failed {} [("slow", slowAgent)] "t" ["slow"] []
    [("slow", slowAgent)] rfl
    (by norm_num [runPlan, agentNode, executeAgentWithRetry, retryGo, slowAgent,
      attemptSleeps, arUpd, nodeFinish, initState, completedOutcome, updList,
      List.range_succ, List.lookup, List.sum, List.foldr])

/-- C1: consider a task whose plan is `pre ++ s :: post` (all names
registered and distinct), where the steps of `pre` complete (their run from
the initial state is `hpre`, leaving no outcome for any later step) and
step `s`'s logic raises on every attempt; provided the whole run fits the
task deadline, the task ends with: `s`'s outcome recorded with
`status = failed`, `retry_count = max_retries` and the last attempt's error
message; no step of `post` acquires an outcome or ever starts; and the
task's final status is FAILED. -/
theorem failing_step_aborts_plan_and_fails_task
    (cfg : TaskConfig) (agents : List (String × AgentSpec)) (taskId : String)
    (initData : List (String × JValue)) (pre post : List String) (s : String)
    (agS : AgentSpec) (errf : Nat → String) (stMid : AgentState)
    (ss₁ : List ℚ) (el₁ : ℚ) (ids₁ : List String)
    (hnd : (pre ++ s :: post).Nodup)
    (hreg : ∀ id ∈ pre ++ s :: post, (agents.lookup id).isSome)
    (hs : agents.lookup s = some agS)
    (hfail : ∀ n st', agS.execute n st' = .error (errf n))
    (hpre : runPlan cfg (planFor agents pre) (initState taskId initData) =
      ⟨.ok (), stMid, ss₁, el₁, ids₁⟩)
    (hmid : ∀ idp ∈ post, stMid.agent_results.lookup idp = none)
    (hT : ¬ cfg.timeout <
      (runPlan cfg (planFor agents (pre ++ s :: post))
        (initState taskId initData)).elapsed) :
    (∃ ar, (executeTask cfg agents taskId (pre ++ s :: post)
          initData).state.agent_results.lookup s = some ar
        ∧ ar.status = .failed ∧ ar.retry_count = cfg.max_retries
        ∧ ar.error = some (errf cfg.max_retries))
    ∧ (∀ idp ∈ post,
        (executeTask cfg agents taskId (pre ++ s :: post)
            initData).state.agent_results.lookup idp = none
        ∧ idp ∉ (executeTask cfg agents taskId (pre ++ s :: post) initData).started)
    ∧ (executeTask cfg agents taskId (pre ++ s :: post)
        initData).state.execution_metadata.lookup "status" = some (.ts .failed) := by
  have hne : pre ++ s :: post ≠ [] := by simp
  have hplan := buildAgentGraph_ok agents (pre ++ s :: post) hne hreg
  have hplanFor : planFor agents (pre ++ s :: post) =
      planFor agents pre ++ (s, agS) :: planFor agents post := by
    unfold planFor
    rw [List.map_append, List.map_cons, hs]
    rfl
  obtain ⟨⟨e', hres⟩, ⟨arS, harS, hstS, hrcS, herrS⟩, hpres, hslS⟩ :=
    agentNode_fail cfg s agS stMid errf hfail
  have hrun2 := runPlan_cons_err cfg s agS (planFor agents post) stMid e' hres
  have hfull := runPlan_append_of_eq cfg (planFor agents pre)
    ((s, agS) :: planFor agents post) (initState taskId initData) stMid ss₁ el₁ ids₁ hpre
  have hfull' : runPlan cfg (planFor agents pre ++ (s, agS) :: planFor agents post)
      (initState taskId initData) =
      ⟨.error e', (agentNode cfg s agS stMid).state,
        ss₁ ++ (agentNode cfg s agS stMid).sleeps,
        el₁ + (agentNode cfg s agS stMid).elapsed, ids₁ ++ [s]⟩ := by
    rw [hfull, hrun2]
  rw [hplanFor, hfull'] at hT
  have hexec : executeTask cfg agents taskId (pre ++ s :: post) initData =
      ⟨{ (agentNode cfg s agS stMid).state with
         execution_metadata :=
           failMeta (agentNode cfg s agS stMid).state.execution_metadata e' },
        ss₁ ++ (agentNode cfg s agS stMid).sleeps, ids₁ ++ [s]⟩ := by
    unfold executeTask
    simp only [hplan]
    rw [hplanFor, hfull', if_neg hT]
  rw [hexec]
  obtain ⟨hndpre, hndsp, hdisj⟩ := List.nodup_append.mp hnd
  have hsnotpost : s ∉ post := (List.nodup_cons.mp hndsp).1
  refine ⟨⟨arS, harS, hstS, hrcS, herrS⟩, ?_, lookup_failMeta_status _ _⟩
  intro idp hidp
  have hidp_ne_s : idp ≠ s := fun h => hsnotpost (h ▸ hidp)
  have hidp_notpre : idp ∉ pre := fun hip => hdisj hip (List.mem_cons_of_mem _ hidp)
  constructor
  · show (agentNode cfg s agS stMid).state.agent_results.lookup idp = none
    rw [hpres idp hidp_ne_s]
    exact hmid idp hidp
  · show idp ∉ ids₁ ++ [s]
    intro hmem
    rcases List.mem_append.mp hmem with hm | hm
    · have hsub := runPlan_started_subset cfg (planFor agents pre)
        (initState taskId initData)
      rw [hpre, planFor_map_fst] at hsub
      exact hidp_notpre (hsub hm)
    · exact hidp_ne_s (by simpa using hm)

/-- An agent whose logic raises on every attempt. -/
def doomedAgent : AgentSpec :=
  { execute := fun _ _ => .error "boom" }

/-- A three-step registry: a succeeding step, an always-failing step, and a
step that would succeed but must never start. -/
def demoAgents : List (String × AgentSpec) :=
  [("a", steadyAgent), ("b", doomedAgent), ("c", steadyAgent)]

/-- The plan-prefix run of `demoAgents`'s step `"a"` from the initial
state, whose components instantiate the prefix-run hypothesis of the C1
theorem at its witness. -/
def preRunAfterA : PlanOut :=
  runPlan {} (planFor demoAgents ["a"]) (initState "t" [])

theorem failing_step_aborts_plan_and_fails_task_witness :
    (∃ ar, (executeTask {} demoAgents "t" (["a"] ++ "b" :: ["c"])
          []).state.agent_results.lookup "b" = some ar
        ∧ ar.status = .failed ∧ ar.retry_count = ({} : TaskConfig).max_retries
        ∧ ar.error = some "boom")
    ∧ (∀ idp ∈ ["c"],
        (executeTask {} demoAgents "t" (["a"] ++ "b" :: ["c"])
            []).state.agent_results.lookup idp = none
        ∧ idp ∉ (executeTask {} demoAgents "t" (["a"] ++ "b" :: ["c"]) []).started)
    ∧ (executeTask {} demoAgents "t" (["a"] ++ "b" :: ["c"])
        []).state.execution_metadata.lookup "status" = some (.ts .failed) :=
  failing_step_aborts_plan_and_fails_task {} demoAgents "t" [] ["a"] ["c"] "b"
    doomedAgent (fun _ => "boom") preRunAfterA.state
    preRunAfterA.sleeps preRunAfterA.elapsed preRunAfterA.started
    (by decide) (by decide) rfl (fun _ _ => rfl)
    rfl
    (by decide)
    (by
      have hp : planFor demoAgents (["a"] ++ "b" :: ["c"]) =
          [("a", steadyAgent), ("b", doomedAgent), ("c", steadyAgent)] := rfl
      rw [hp]
      norm_num [runPlan, agentNode, executeAgentWithRetry, retryGo, steadyAgent,
        doomedAgent, attemptSleeps, arUpd, nodeFinish, initState,
        completedOutcome, failedOutcome, updList,
        List.range_succ, List.lookup, List.sum, List.foldr])
